import Mathlib

/-!
Verification of the spi concurrency-primitive toolkit (sequential shallow
embedding of the C++ headers under `src/src/utils/`).

Each C++ class relevant to the checked properties is translated into a Lean
structure plus pure state-transition functions.  Pointer-linked node chains
(single-owner, acyclic in sequential execution) are represented by the Lean
list of the data fields of their nodes; sentinel/dummy nodes carry no data and
are represented by the list boundary, with their count kept where the code
observes it.  Machine integers that stay far from the `int32_t` range in every
checked scenario are modelled as `Int`; `size_t` counters as `Nat`.
Mutex/lock acquisition brackets inside a method body are elided: the
sequential semantics of the method is the semantics of its critical section.
-/

namespace Spi

/-- `std::memory_order` (C++ enumeration), as passed to the atomic methods. -/
inductive MemoryOrder where
  | relaxed
  | consume
  | acquire
  | release
  | acqRel
  | seqCst
deriving DecidableEq, Repr

/-- Result of one operation on `AtomicThreadSafe` (`src/src/utils/Atomic.hpp`,
`AtomicThreadSafe`): the new stored value, the value/flag returned to the
caller, and the memory order that actually reached the underlying
`std::atomic` call.  In the C++ source every method body writes
`atomic.op(value, order = std::memory_order_seq_cst)`: the argument `order` is
assigned `seq_cst` before being forwarded, which the `usedOrder` field makes
observable in the model. -/
structure AtomicOpResult (T R : Type) where
  value : T
  ret : R
  usedOrder : MemoryOrder
deriving DecidableEq, Repr

/-- `AtomicThreadSafe<T>` (`Atomic.hpp` lines 179-246): state is the wrapped
`std::atomic<T>` value. -/
structure AtomicThreadSafe (T : Type) where
  atomic : T
deriving DecidableEq, Repr

namespace AtomicThreadSafe

variable {T : Type}

/-- `storeA`: `atomic.store(value, order = std::memory_order_seq_cst)`. -/
def storeA (a : AtomicThreadSafe T) (value : T) (order : MemoryOrder) :
    AtomicOpResult T Unit :=
  let order := MemoryOrder.seqCst
  { value := value, ret := (), usedOrder := order }

/-- `storeB`: identical body to `storeA`. -/
def storeB (a : AtomicThreadSafe T) (value : T) (order : MemoryOrder) :
    AtomicOpResult T Unit :=
  let order := MemoryOrder.seqCst
  { value := value, ret := (), usedOrder := order }

/-- `loadA`: `return atomic.load(order = std::memory_order_seq_cst)`. -/
def loadA (a : AtomicThreadSafe T) (order : MemoryOrder) :
    AtomicOpResult T T :=
  let order := MemoryOrder.seqCst
  { value := a.atomic, ret := a.atomic, usedOrder := order }

/-- `loadB`: identical body to `loadA`. -/
def loadB (a : AtomicThreadSafe T) (order : MemoryOrder) :
    AtomicOpResult T T :=
  let order := MemoryOrder.seqCst
  { value := a.atomic, ret := a.atomic, usedOrder := order }

/-- `fetchAddA`: `return atomic.fetch_add(value, order = seq_cst)`. -/
def fetchAddA [Add T] (a : AtomicThreadSafe T) (value : T) (order : MemoryOrder) :
    AtomicOpResult T T :=
  let order := MemoryOrder.seqCst
  { value := a.atomic + value, ret := a.atomic, usedOrder := order }

/-- `fetchAddB`: identical body to `fetchAddA`. -/
def fetchAddB [Add T] (a : AtomicThreadSafe T) (value : T) (order : MemoryOrder) :
    AtomicOpResult T T :=
  let order := MemoryOrder.seqCst
  { value := a.atomic + value, ret := a.atomic, usedOrder := order }

/-- `fetchSubA`: `return atomic.fetch_sub(value, order = seq_cst)`. -/
def fetchSubA [Sub T] (a : AtomicThreadSafe T) (value : T) (order : MemoryOrder) :
    AtomicOpResult T T :=
  let order := MemoryOrder.seqCst
  { value := a.atomic - value, ret := a.atomic, usedOrder := order }

/-- `fetchSubB`: identical body to `fetchSubA`. -/
def fetchSubB [Sub T] (a : AtomicThreadSafe T) (value : T) (order : MemoryOrder) :
    AtomicOpResult T T :=
  let order := MemoryOrder.seqCst
  { value := a.atomic - value, ret := a.atomic, usedOrder := order }

/-- `exchangeA`: `return atomic.exchange(value, order = seq_cst)`. -/
def exchangeA (a : AtomicThreadSafe T) (value : T) (order : MemoryOrder) :
    AtomicOpResult T T :=
  let order := MemoryOrder.seqCst
  { value := value, ret := a.atomic, usedOrder := order }

/-- `exchangeB`: identical body to `exchangeA`. -/
def exchangeB (a : AtomicThreadSafe T) (value : T) (order : MemoryOrder) :
    AtomicOpResult T T :=
  let order := MemoryOrder.seqCst
  { value := value, ret := a.atomic, usedOrder := order }

/-- `compareExchangeA`:
`return atomic.compare_exchange_strong(expected, desired, order = seq_cst)`.
`expected` is a by-value copy of the parameter, so its write-back on failure
is invisible to the caller; only the success flag is returned. -/
def compareExchangeA [DecidableEq T] (a : AtomicThreadSafe T)
    (expected desired : T) (order : MemoryOrder) : AtomicOpResult T Bool :=
  let order := MemoryOrder.seqCst
  if a.atomic = expected then
    { value := desired, ret := true, usedOrder := order }
  else
    { value := a.atomic, ret := false, usedOrder := order }

/-- `compareExchangeB`: identical body to `compareExchangeA`. -/
def compareExchangeB [DecidableEq T] (a : AtomicThreadSafe T)
    (expected desired : T) (order : MemoryOrder) : AtomicOpResult T Bool :=
  let order := MemoryOrder.seqCst
  if a.atomic = expected then
    { value := desired, ret := true, usedOrder := order }
  else
    { value := a.atomic, ret := false, usedOrder := order }

end AtomicThreadSafe

/-- `AtomicTwoParty<T>` (`Atomic.hpp` lines 258-398): a plain value guarded by
a `ReadOrWriteAccess` lock.  The lock brackets (`accessRead`/`releaseRead`,
`accessWrite`/`releaseWrite`) are elided: sequentially, each method is its
critical-section body.  Every method starts with `(void)order;` — the memory
order argument is discarded, so the model records no used order. -/
structure AtomicTwoParty (T : Type) where
  value : T
deriving DecidableEq, Repr

namespace AtomicTwoParty

variable {T : Type}

/-- `storeA`: `(void)order; value = v;` on the read path. -/
def storeA (a : AtomicTwoParty T) (v : T) (order : MemoryOrder) :
    AtomicTwoParty T × Unit :=
  ({ value := v }, ())

/-- `storeB`: `(void)order; value = v;` on the write path. -/
def storeB (a : AtomicTwoParty T) (v : T) (order : MemoryOrder) :
    AtomicTwoParty T × Unit :=
  ({ value := v }, ())

/-- `loadA`: `(void)order; T tmp = value; return tmp;`. -/
def loadA (a : AtomicTwoParty T) (order : MemoryOrder) :
    AtomicTwoParty T × T :=
  (a, a.value)

/-- `loadB`: identical body on the write path. -/
def loadB (a : AtomicTwoParty T) (order : MemoryOrder) :
    AtomicTwoParty T × T :=
  (a, a.value)

/-- `fetchAddA`: `(void)order; T tmp = value; value += v; return tmp;`. -/
def fetchAddA [Add T] (a : AtomicTwoParty T) (v : T) (order : MemoryOrder) :
    AtomicTwoParty T × T :=
  ({ value := a.value + v }, a.value)

/-- `fetchAddB`: identical body on the write path. -/
def fetchAddB [Add T] (a : AtomicTwoParty T) (v : T) (order : MemoryOrder) :
    AtomicTwoParty T × T :=
  ({ value := a.value + v }, a.value)

/-- `fetchSubA`: `(void)order; T tmp = value; value -= v; return tmp;`. -/
def fetchSubA [Sub T] (a : AtomicTwoParty T) (v : T) (order : MemoryOrder) :
    AtomicTwoParty T × T :=
  ({ value := a.value - v }, a.value)

/-- `fetchSubB`: identical body on the write path. -/
def fetchSubB [Sub T] (a : AtomicTwoParty T) (v : T) (order : MemoryOrder) :
    AtomicTwoParty T × T :=
  ({ value := a.value - v }, a.value)

/-- `exchangeA`: `(void)order; T tmp = value; value = v; return tmp;`. -/
def exchangeA (a : AtomicTwoParty T) (v : T) (order : MemoryOrder) :
    AtomicTwoParty T × T :=
  ({ value := v }, a.value)

/-- `exchangeB`: identical body on the write path. -/
def exchangeB (a : AtomicTwoParty T) (v : T) (order : MemoryOrder) :
    AtomicTwoParty T × T :=
  ({ value := v }, a.value)

/-- `compareExchangeA`: `(void)order; if(value == expected){value = desired;
return true;} return false;`. -/
def compareExchangeA [DecidableEq T] (a : AtomicTwoParty T)
    (expected desired : T) (order : MemoryOrder) : AtomicTwoParty T × Bool :=
  if a.value = expected then ({ value := desired }, true) else (a, false)

/-- `compareExchangeB`: identical body on the write path. -/
def compareExchangeB [DecidableEq T] (a : AtomicTwoParty T)
    (expected desired : T) (order : MemoryOrder) : AtomicTwoParty T × Bool :=
  if a.value = expected then ({ value := desired }, true) else (a, false)

end AtomicTwoParty

/-- `Atomic<T>` (`Atomic.hpp` lines 409-535): holds an `AtomicThreadSafe<T>`
and an `AtomicTwoParty<T>` member and dispatches every operation on the
constructor flag `multithreaded`.  The three-argument constructor initialises
both members with the same initial value. -/
structure Atomic (T : Type) where
  atomicThreadSafe : AtomicThreadSafe T
  atomicTwoParty : AtomicTwoParty T
  multithreaded : Bool
deriving DecidableEq, Repr

namespace Atomic

variable {T : Type}

/-- `Atomic(reduceCpuUsage, multithreaded, value)`: both members start at
`value`; `reduceCpuUsage` only selects the spin/block mode of the inner
`ReadOrWriteAccess` and has no sequential effect. -/
def mkInit (reduceCpuUsage multithreaded : Bool) (value : T) : Atomic T :=
  { atomicThreadSafe := { atomic := value }
    atomicTwoParty := { value := value }
    multithreaded := multithreaded }

/-- The currently stored value, read through whichever member the
`multithreaded` flag makes authoritative. -/
def val (a : Atomic T) : T :=
  if a.multithreaded then a.atomicThreadSafe.atomic else a.atomicTwoParty.value

/-- `Atomic::storeA`: dispatch on `multithreaded`. -/
def storeA (a : Atomic T) (v : T) (order : MemoryOrder) : Atomic T × Unit :=
  if a.multithreaded then
    let r := a.atomicThreadSafe.storeA v order
    ({ a with atomicThreadSafe := { atomic := r.value } }, r.ret)
  else
    let r := a.atomicTwoParty.storeA v order
    ({ a with atomicTwoParty := r.1 }, r.2)

/-- `Atomic::storeB`: dispatch on `multithreaded`. -/
def storeB (a : Atomic T) (v : T) (order : MemoryOrder) : Atomic T × Unit :=
  if a.multithreaded then
    let r := a.atomicThreadSafe.storeB v order
    ({ a with atomicThreadSafe := { atomic := r.value } }, r.ret)
  else
    let r := a.atomicTwoParty.storeB v order
    ({ a with atomicTwoParty := r.1 }, r.2)

/-- `Atomic::loadA`: dispatch on `multithreaded`. -/
def loadA (a : Atomic T) (order : MemoryOrder) : Atomic T × T :=
  if a.multithreaded then
    let r := a.atomicThreadSafe.loadA order
    ({ a with atomicThreadSafe := { atomic := r.value } }, r.ret)
  else
    let r := a.atomicTwoParty.loadA order
    ({ a with atomicTwoParty := r.1 }, r.2)

/-- `Atomic::loadB`: dispatch on `multithreaded`. -/
def loadB (a : Atomic T) (order : MemoryOrder) : Atomic T × T :=
  if a.multithreaded then
    let r := a.atomicThreadSafe.loadB order
    ({ a with atomicThreadSafe := { atomic := r.value } }, r.ret)
  else
    let r := a.atomicTwoParty.loadB order
    ({ a with atomicTwoParty := r.1 }, r.2)

/-- `Atomic::fetchAddA`: dispatch on `multithreaded`. -/
def fetchAddA [Add T] (a : Atomic T) (v : T) (order : MemoryOrder) :
    Atomic T × T :=
  if a.multithreaded then
    let r := a.atomicThreadSafe.fetchAddA v order
    ({ a with atomicThreadSafe := { atomic := r.value } }, r.ret)
  else
    let r := a.atomicTwoParty.fetchAddA v order
    ({ a with atomicTwoParty := r.1 }, r.2)

/-- `Atomic::fetchAddB`: dispatch on `multithreaded`. -/
def fetchAddB [Add T] (a : Atomic T) (v : T) (order : MemoryOrder) :
    Atomic T × T :=
  if a.multithreaded then
    let r := a.atomicThreadSafe.fetchAddB v order
    ({ a with atomicThreadSafe := { atomic := r.value } }, r.ret)
  else
    let r := a.atomicTwoParty.fetchAddB v order
    ({ a with atomicTwoParty := r.1 }, r.2)

/-- `Atomic::fetchSubA`: dispatch on `multithreaded`. -/
def fetchSubA [Sub T] (a : Atomic T) (v : T) (order : MemoryOrder) :
    Atomic T × T :=
  if a.multithreaded then
    let r := a.atomicThreadSafe.fetchSubA v order
    ({ a with atomicThreadSafe := { atomic := r.value } }, r.ret)
  else
    let r := a.atomicTwoParty.fetchSubA v order
    ({ a with atomicTwoParty := r.1 }, r.2)

/-- `Atomic::fetchSubB`: dispatch on `multithreaded`. -/
def fetchSubB [Sub T] (a : Atomic T) (v : T) (order : MemoryOrder) :
    Atomic T × T :=
  if a.multithreaded then
    let r := a.atomicThreadSafe.fetchSubB v order
    ({ a with atomicThreadSafe := { atomic := r.value } }, r.ret)
  else
    let r := a.atomicTwoParty.fetchSubB v order
    ({ a with atomicTwoParty := r.1 }, r.2)

/-- `Atomic::exchangeA`: dispatch on `multithreaded`. -/
def exchangeA (a : Atomic T) (v : T) (order : MemoryOrder) : Atomic T × T :=
  if a.multithreaded then
    let r := a.atomicThreadSafe.exchangeA v order
    ({ a with atomicThreadSafe := { atomic := r.value } }, r.ret)
  else
    let r := a.atomicTwoParty.exchangeA v order
    ({ a with atomicTwoParty := r.1 }, r.2)

/-- `Atomic::exchangeB`: dispatch on `multithreaded`. -/
def exchangeB (a : Atomic T) (v : T) (order : MemoryOrder) : Atomic T × T :=
  if a.multithreaded then
    let r := a.atomicThreadSafe.exchangeB v order
    ({ a with atomicThreadSafe := { atomic := r.value } }, r.ret)
  else
    let r := a.atomicTwoParty.exchangeB v order
    ({ a with atomicTwoParty := r.1 }, r.2)

/-- `Atomic::compareExchangeA`: dispatch on `multithreaded`. -/
def compareExchangeA [DecidableEq T] (a : Atomic T) (expected desired : T)
    (order : MemoryOrder) : Atomic T × Bool :=
  if a.multithreaded then
    let r := a.atomicThreadSafe.compareExchangeA expected desired order
    ({ a with atomicThreadSafe := { atomic := r.value } }, r.ret)
  else
    let r := a.atomicTwoParty.compareExchangeA expected desired order
    ({ a with atomicTwoParty := r.1 }, r.2)

/-- `Atomic::compareExchangeB`: dispatch on `multithreaded`. -/
def compareExchangeB [DecidableEq T] (a : Atomic T) (expected desired : T)
    (order : MemoryOrder) : Atomic T × Bool :=
  if a.multithreaded then
    let r := a.atomicThreadSafe.compareExchangeB expected desired order
    ({ a with atomicThreadSafe := { atomic := r.value } }, r.ret)
  else
    let r := a.atomicTwoParty.compareExchangeB expected desired order
    ({ a with atomicTwoParty := r.1 }, r.2)

/-- Modelled from the spec: `CountingLockCompSwap` (`CountingLock.hpp` lines
59, 77) calls `counter.compareExchangeWeakA/B`, whose definition is not under
`src/` (the `Atomic.hpp` present there only declares the strong
`compareExchangeA/B`).  Per spec §4.3 the ScalarAtomic compare-exchange
atomically replaces the value when it equals `expected`; a weak variant may
additionally fail spuriously, which in the sequential model only repeats the
enclosing retry loop with an unchanged value, so it is modelled as the
deterministic compare-exchange. -/
def compareExchangeWeakA [DecidableEq T] (a : Atomic T) (expected desired : T)
    (order : MemoryOrder) : Atomic T × Bool :=
  a.compareExchangeA expected desired order

/-- Modelled from the spec: weak variant of `compareExchangeB`; see
`Atomic.compareExchangeWeakA`. -/
def compareExchangeWeakB [DecidableEq T] (a : Atomic T) (expected desired : T)
    (order : MemoryOrder) : Atomic T × Bool :=
  a.compareExchangeB expected desired order

end Atomic

/-- `CountingLockCompSwap` (`CountingLock.hpp` lines 39-86): an
`Atomic<int32_t>` counter plus the permit ceiling.  The mutex/condition
variable only implement blocking and carry no sequential state.  `int32_t`
is modelled as `Int`: every checked scenario keeps the counter within
`[-1, max+1]`, far from the wrap-around boundary. -/
structure CountingLockCompSwap where
  counter : Atomic Int
  maxCounter : Int
deriving Repr

namespace CountingLockCompSwap

/-- Constructor: the member initialiser list sets `counter(reduceCpuUsage,
multithreaded, 0)` and `maxCounter(max)`; the body then throws
`std::invalid_argument` if `max < 1`. -/
def mk? (max : Int) (reduceCpuUsage multithreaded : Bool) :
    Except String CountingLockCompSwap :=
  if max < 1 then .error "Max must be at least 1."
  else .ok { counter := Atomic.mkInit reduceCpuUsage multithreaded 0
             maxCounter := max }

/-- `acquire(block=false)`: one iteration of the retry loop decides the
sequential outcome — `loadA`, then if below `maxCounter` a weak CAS to
`curr+1` (which cannot lose a race sequentially), else return false
immediately (`block` is false, so the `cv.wait` branch is not taken). -/
def acquireNB (l : CountingLockCompSwap) : Bool × CountingLockCompSwap :=
  let r := l.counter.loadA MemoryOrder.acquire
  let curr := r.2
  if curr < l.maxCounter then
    let c := r.1.compareExchangeWeakA curr (curr + 1) MemoryOrder.acquire
    (c.2, { l with counter := c.1 })
  else
    (false, { l with counter := r.1 })

/-- `release()`: `loadB`; if positive, weak CAS to `curr-1` and
`cv.notify_all()`; otherwise throw `std::runtime_error` — reported as the
returned message, with the state at the throw point. -/
def release (l : CountingLockCompSwap) : CountingLockCompSwap × Option String :=
  let r := l.counter.loadB MemoryOrder.release
  let curr := r.2
  if curr > 0 then
    let c := r.1.compareExchangeWeakB curr (curr - 1) MemoryOrder.release
    ({ l with counter := c.1 }, none)
  else
    ({ l with counter := r.1 }, some "Counter is already at 0.")

end CountingLockCompSwap

/-- `CountingLockFetch` (`CountingLock.hpp` lines 90-207). -/
structure CountingLockFetch where
  counter : Atomic Int
  maxCounter : Int
  closing : Bool
deriving Repr

namespace CountingLockFetch

/-- Constructor (`CountingLock.hpp` lines 108-112): initialises
`counter(reduceCpuUsage, multithreaded, 0)` and `maxCounter(max)` with an
empty body — unlike the sibling implementations it performs no validation of
`max`, so construction always succeeds. -/
def mk? (max : Int) (reduceCpuUsage multithreaded : Bool) :
    Except String CountingLockFetch :=
  .ok { counter := Atomic.mkInit reduceCpuUsage multithreaded 0
        maxCounter := max
        closing := false }

/-- `acquire(block=false)`: while not closing, `fetchAddA(1)`; if the previous
value was below `maxCounter` return true, else `fetchSubA(1)` to roll back and
(since `block` is false) return false. -/
def acquireNB (l : CountingLockFetch) : Bool × CountingLockFetch :=
  if l.closing then (false, l)
  else
    let r := l.counter.fetchAddA 1 MemoryOrder.acquire
    if r.2 < l.maxCounter then (true, { l with counter := r.1 })
    else
      let c := r.1.fetchSubA 1 MemoryOrder.acquire
      (false, { l with counter := c.1 })

/-- `release()` (`CountingLock.hpp` lines 199-206): `fetchSubB(1)`; if the
previous value was `<= 0`, `fetchAddB(1)` to roll back and throw
`std::runtime_error`; otherwise `cv.notify_all()`. -/
def release (l : CountingLockFetch) : CountingLockFetch × Option String :=
  let r := l.counter.fetchSubB 1 MemoryOrder.release
  if r.2 ≤ 0 then
    let c := r.1.fetchAddB 1 MemoryOrder.release
    ({ l with counter := c.1 }, some "Counter is already at 0.")
  else
    ({ l with counter := r.1 }, none)

end CountingLockFetch

/-- `CountingLockSemaphore` (`CountingLock.hpp` lines 213-232): a
`std::counting_semaphore<65535>` whose internal count starts at `max`. -/
structure CountingLockSemaphore where
  counter : Int
deriving Repr

namespace CountingLockSemaphore

/-- Constructor: initialises the semaphore with `max`, then the body throws
`std::invalid_argument` if `max < 1`. -/
def mk? (max : Int) : Except String CountingLockSemaphore :=
  if max < 1 then .error "Max must be at least 1."
  else .ok { counter := max }

end CountingLockSemaphore

/-- `QueueRing<T>` (`QueueRing.hpp`): a `std::vector<T>` of fixed size with
atomic read/write offsets and an occupancy counter (`size_t`, modelled as
`Nat`).  Sequentially every `compare_exchange_weak` retry loop succeeds on its
first iteration, so each loop is a single transition. -/
structure QueueRing (T : Type) where
  data : List T
  readOffset : Nat
  writeOffset : Nat
  count : Nat
deriving Repr

namespace QueueRing

variable {T : Type}

/-- `QueueRing(size)`: `data.resize(size)` fills the vector with
default-constructed elements, here a given default value `d`. -/
def mkInit (size : Nat) (d : T) : QueueRing T :=
  { data := List.replicate size d, readOffset := 0, writeOffset := 0, count := 0 }

/-- `push` (`QueueRing.hpp` lines 33-49): throws `std::runtime_error("Queue is
full")` when `count == data.size()`; otherwise increments `count`, advances
`writeOffset` modulo the capacity, and stores into the slot at the old write
offset. -/
def push (q : QueueRing T) (v : T) : Except String (QueueRing T) :=
  if q.count = q.data.length then .error "Queue is full"
  else
    let oldWriteOffset := q.writeOffset
    let newWriteOffset := (oldWriteOffset + 1) % q.data.length
    .ok { q with count := q.count + 1
                 writeOffset := newWriteOffset
                 data := q.data.set oldWriteOffset v }

/-- `pop` (`QueueRing.hpp` lines 51-68): returns false (here `none`) when
`count == 0`, leaving every field untouched; otherwise decrements `count`,
advances `readOffset` modulo the capacity, and yields the slot at the old read
offset. -/
def pop (q : QueueRing T) : QueueRing T × Option T :=
  if q.count = 0 then (q, none)
  else
    let oldReadOffset := q.readOffset
    ({ q with count := q.count - 1
              readOffset := (oldReadOffset + 1) % q.data.length },
     q.data[oldReadOffset]?)

/-- `empty`: `count.load() == 0`. -/
def empty (q : QueueRing T) : Bool :=
  q.count == 0

/-- Push a list of values in order, stopping at the first capacity error. -/
def pushAll : QueueRing T → List T → Except String (QueueRing T)
  | q, [] => .ok q
  | q, v :: vs => (q.push v).bind fun q2 => pushAll q2 vs

/-- Pop `n` times, discarding the yielded values. -/
def popN : QueueRing T → Nat → QueueRing T
  | q, 0 => q
  | q, n + 1 => popN (q.pop).1 n

end QueueRing

/-- `QueueTwoPartyNoCritical<T>` (`QueueTwoPartyNoCritical.hpp`): a
sentinel-tailed singly linked chain (`head..tail`, where `tail` is always an
empty dummy node that the next `push` fills) plus a recycle chain in the same
sentinel shape.  `items` is the list of data fields of the nodes from `head`
up to but excluding `tail`; `recycleLen` is the number of nodes in the recycle
chain (at least 1, for its dummy). -/
structure QueueTwoPartyNoCritical (T : Type) where
  items : List T
  recycleLen : Nat
deriving DecidableEq, Repr

namespace QueueTwoPartyNoCritical

variable {T : Type}

/-- Constructor: one dummy node in each chain. -/
def mkInit : QueueTwoPartyNoCritical T :=
  { items := [], recycleLen := 1 }

/-- `push` (`QueueTwoPartyNoCritical.hpp` lines 78-91): take a node from the
recycle chain if it has more than its dummy, else allocate; write `data` into
the old tail and link the fresh node behind it as the new tail dummy.  The
visible effect on the data chain is appending `v`. -/
def push (q : QueueTwoPartyNoCritical T) (v : T) : QueueTwoPartyNoCritical T :=
  let recycleLen2 := if q.recycleLen > 1 then q.recycleLen - 1 else q.recycleLen
  { items := q.items ++ [v], recycleLen := recycleLen2 }

/-- `pop` (`QueueTwoPartyNoCritical.hpp` lines 93-108): if `head->next` is
null (no data nodes) yield and return false with the state untouched; else
advance `head`, return the data of the old head, and append the old head to the
recycle chain. -/
def pop (q : QueueTwoPartyNoCritical T) :
    QueueTwoPartyNoCritical T × Option T :=
  match q.items with
  | [] => (q, none)
  | x :: rest => ({ items := rest, recycleLen := q.recycleLen + 1 }, some x)

/-- `empty`: `head->next == nullptr`. -/
def empty (q : QueueTwoPartyNoCritical T) : Bool :=
  q.items.isEmpty

end QueueTwoPartyNoCritical

/-- `QueueTwoPartyAtomic<T>` (`QueueTwoPartyAtomic.hpp`): the same
sentinel-tailed data chain, plus atomic counters `count` and `recycleCount`
that are biased by one ("one actually represents zero").  Under the
single-producer/single-consumer discipline run sequentially,
`count = items.length + 1` and `recycleCount` is the recycle-chain node count
(at least 1). -/
structure QueueTwoPartyAtomic (T : Type) where
  items : List T
  count : Nat
  recycleCount : Nat
deriving DecidableEq, Repr

namespace QueueTwoPartyAtomic

variable {T : Type}

/-- Constructor: one dummy node in each chain, both counters at their biased
"zero" of 1. -/
def mkInit : QueueTwoPartyAtomic T :=
  { items := [], count := 1, recycleCount := 1 }

/-- `push` (`QueueTwoPartyAtomic.hpp` lines 73-87): `recycleCount.fetch_sub(1)`
— if the previous value was 1 the recycle chain is empty, so restore the
counter and allocate; otherwise reuse the front recycle node.  Then fill the
old tail with `data`, link the new dummy, and `count.fetch_add(1)`. -/
def push (q : QueueTwoPartyAtomic T) (v : T) : QueueTwoPartyAtomic T :=
  let old := q.recycleCount
  let rc := q.recycleCount - 1
  if old = 1 then
    { items := q.items ++ [v], count := q.count + 1, recycleCount := rc + 1 }
  else
    { items := q.items ++ [v], count := q.count + 1, recycleCount := rc }

/-- `pop` (`QueueTwoPartyAtomic.hpp` lines 89-104): `count.fetch_sub(1)` — if
the previous value was 1 the queue is empty, so restore the counter, yield and
return false; otherwise advance `head`, return the data of the old head, append the
old head to the recycle chain and `recycleCount.fetch_add(1)`.  The inner `[]`
case is unreachable while `count = items.length + 1` holds (in C++ it would
dereference an unlinked node). -/
def pop (q : QueueTwoPartyAtomic T) : QueueTwoPartyAtomic T × Option T :=
  let old := q.count
  let c := q.count - 1
  if old = 1 then ({ q with count := c + 1 }, none)
  else
    match q.items with
    | [] => ({ items := [], count := c, recycleCount := q.recycleCount + 1 }, none)
    | x :: rest =>
      ({ items := rest, count := c, recycleCount := q.recycleCount + 1 }, some x)

/-- `empty`: `count.load() == 1` (one represents zero). -/
def empty (q : QueueTwoPartyAtomic T) : Bool :=
  q.count == 1

end QueueTwoPartyAtomic

/-- `QueueLockCustom<T>` (`QueueLock.hpp` lines 84-169): a plain
null-terminated chain from `head` to `tail` (no sentinel), each operation
bracketed by an `ExclusiveLock`; sequentially each method is its critical
section.  `items` is the list of node data from `head` to `tail`. -/
structure QueueLockCustom (T : Type) where
  items : List T
deriving DecidableEq, Repr

namespace QueueLockCustom

variable {T : Type}

/-- Constructor: `head = tail = nullptr`. -/
def mkInit : QueueLockCustom T :=
  { items := [] }

/-- `push` (`QueueLock.hpp` lines 118-128): allocate a node; if `tail` is non
null link it behind `tail`, else it becomes `head`; either way it is the new
`tail` — appending to the chain. -/
def push (q : QueueLockCustom T) (v : T) : QueueLockCustom T :=
  if q.items.isEmpty then { items := [v] } else { items := q.items ++ [v] }

/-- `pop` (`QueueLock.hpp` lines 130-143): if `head` is null return false with
the state untouched; else return the data of the head, advance `head` and delete
the old node (clearing `tail` when the chain empties). -/
def pop (q : QueueLockCustom T) : QueueLockCustom T × Option T :=
  match q.items with
  | [] => (q, none)
  | x :: rest => ({ items := rest }, some x)

/-- `empty`: `head == nullptr`. -/
def empty (q : QueueLockCustom T) : Bool :=
  q.items.isEmpty

end QueueLockCustom

/-- One step of a sequential push/pop workload on a queue. -/
inductive QOp (T : Type) where
  | push (v : T)
  | pop
deriving DecidableEq, Repr

namespace QOp

variable {T : Type}

/-- The values pushed by a workload, in order. -/
def pushedOf : List (QOp T) → List T
  | [] => []
  | .push v :: ops => v :: pushedOf ops
  | .pop :: ops => pushedOf ops

end QOp

namespace QueueTwoPartyNoCritical

variable {T : Type}

/-- Apply a workload to a `QueueTwoPartyNoCritical`, collecting the values
returned by the successful pops in order. -/
def run : QueueTwoPartyNoCritical T → List (QOp T) →
    QueueTwoPartyNoCritical T × List T
  | q, [] => (q, [])
  | q, .push v :: ops => run (q.push v) ops
  | q, .pop :: ops =>
    let r := q.pop
    let rest := run r.1 ops
    (rest.1, r.2.toList ++ rest.2)

end QueueTwoPartyNoCritical

namespace QueueTwoPartyAtomic

variable {T : Type}

/-- Apply a workload to a `QueueTwoPartyAtomic`, collecting the values
returned by the successful pops in order. -/
def run : QueueTwoPartyAtomic T → List (QOp T) →
    QueueTwoPartyAtomic T × List T
  | q, [] => (q, [])
  | q, .push v :: ops => run (q.push v) ops
  | q, .pop :: ops =>
    let r := q.pop
    let rest := run r.1 ops
    (rest.1, r.2.toList ++ rest.2)

end QueueTwoPartyAtomic

namespace QueueLockCustom

variable {T : Type}

/-- Apply a workload to a `QueueLockCustom`, collecting the values returned by
the successful pops in order. -/
def run : QueueLockCustom T → List (QOp T) → QueueLockCustom T × List T
  | q, [] => (q, [])
  | q, .push v :: ops => run (q.push v) ops
  | q, .pop :: ops =>
    let r := q.pop
    let rest := run r.1 ops
    (rest.1, r.2.toList ++ rest.2)

end QueueLockCustom

/-!
Callback queues.  A queued callback is modelled as an abstract value of a type
`C`; `execute` receives an interpretation `env : C → Bool` giving the value
each callback returns when invoked during that drain (in C++ the callbacks are
closures whose result may depend on external state, which can change between
two `execute` calls but is sampled at most once per callback within one drain,
since every variant stops at the first `false`).  `execute` returns the new
queue state, the boolean result, and the trace of callbacks invoked, in
invocation order.
-/

/-- `CallbackQueueTwoParty<Callback>` (`CallbackQueueTwoParty.hpp` lines
19-132): a sentinel-tailed chain of callback nodes plus a sentinel-shaped
recycle chain, exactly like `QueueTwoPartyNoCritical`.  `items` lists the
callbacks of the nodes from `head` up to but excluding the tail dummy;
`recycleLen` counts the recycle-chain nodes (at least 1). -/
structure CallbackQueueTwoParty (C : Type) where
  items : List C
  recycleLen : Nat
deriving DecidableEq, Repr

namespace CallbackQueueTwoParty

variable {C : Type}

/-- Constructor: one dummy node in each chain. -/
def mkInit : CallbackQueueTwoParty C :=
  { items := [], recycleLen := 1 }

/-- `push` (`CallbackQueueTwoParty.hpp` lines 82-95): reuse a recycle node or
allocate, write the callback into the old tail, link the fresh node as the
new tail dummy — appending the callback. -/
def push (q : CallbackQueueTwoParty C) (cb : C) : CallbackQueueTwoParty C :=
  let recycleLen2 := if q.recycleLen > 1 then q.recycleLen - 1 else q.recycleLen
  { items := q.items ++ [cb], recycleLen := recycleLen2 }

/-- One drain loop of `execute` (`CallbackQueueTwoParty.hpp` lines 110-126):
while `head->next != nullptr`, the front node is unlinked and appended to the
recycle chain, and only THEN is its callback invoked; on `false` the method
returns false — with the callback already dequeued. -/
def executeGo (env : C → Bool) : List C → Nat →
    CallbackQueueTwoParty C × Bool × List C
  | [], rl => ({ items := [], recycleLen := rl }, true, [])
  | cb :: rest, rl =>
    if env cb then
      let r := executeGo env rest (rl + 1)
      (r.1, r.2.1, cb :: r.2.2)
    else
      ({ items := rest, recycleLen := rl + 1 }, false, [cb])

/-- `execute(args...)`: drain from the head; note there is no re-entrancy
guard in this variant. -/
def execute (env : C → Bool) (q : CallbackQueueTwoParty C) :
    CallbackQueueTwoParty C × Bool × List C :=
  executeGo env q.items q.recycleLen

end CallbackQueueTwoParty

/-- `CallbackQueueThreadSafe<Callback>` (`CallbackQueueThreadSafe.hpp`): a
plain null-terminated chain `head..tail` plus a null-terminated recycle chain
(no sentinels), every method under one mutex.  `items` lists the queued
callbacks, `recycleLen` the recycle-chain length. -/
structure CallbackQueueThreadSafe (C : Type) where
  items : List C
  recycleLen : Nat
deriving DecidableEq, Repr

namespace CallbackQueueThreadSafe

variable {C : Type}

/-- Constructor: all four chain pointers null. -/
def mkInit : CallbackQueueThreadSafe C :=
  { items := [], recycleLen := 0 }

/-- `push` (`CallbackQueueThreadSafe.hpp` lines 92-113): reuse the front
recycle node when the recycle chain is non-empty, else allocate; append the
entry at `tail`. -/
def push (q : CallbackQueueThreadSafe C) (cb : C) : CallbackQueueThreadSafe C :=
  let recycleLen2 := if q.recycleLen > 0 then q.recycleLen - 1 else q.recycleLen
  { items := q.items ++ [cb], recycleLen := recycleLen2 }

/-- The drain loop of `execute` (`CallbackQueueThreadSafe.hpp` lines 128-148):
while `head != nullptr`, invoke `head->callback`; on `true` unlink the head
node into the recycle chain and continue, on `false` return false immediately
— the entry stays at the front. -/
def executeGo (env : C → Bool) : List C → Nat →
    CallbackQueueThreadSafe C × Bool × List C
  | [], rl => ({ items := [], recycleLen := rl }, true, [])
  | cb :: rest, rl =>
    if env cb then
      let r := executeGo env rest (rl + 1)
      (r.1, r.2.1, cb :: r.2.2)
    else
      ({ items := cb :: rest, recycleLen := rl }, false, [cb])

/-- `execute(args...)`: the whole drain runs under the mutex; no separate
re-entrancy flag exists in this variant. -/
def execute (env : C → Bool) (q : CallbackQueueThreadSafe C) :
    CallbackQueueThreadSafe C × Bool × List C :=
  executeGo env q.items q.recycleLen

end CallbackQueueThreadSafe

/-- `CallbackQueueNaive` (`CallbackQueueNaive.hpp`): a null-terminated chain
with an atomic `executing` re-entrancy flag; popped nodes are deleted (no
recycling). -/
structure CallbackQueueNaive (C : Type) where
  items : List C
  executing : Bool
deriving DecidableEq, Repr

namespace CallbackQueueNaive

variable {C : Type}

/-- Constructor: empty chain, `executing{false}`. -/
def mkInit : CallbackQueueNaive C :=
  { items := [], executing := false }

/-- `push` (`CallbackQueueNaive.hpp` lines 56-65): exchange the new entry into
`tail` and link it behind the old tail (or make it `head`) — appending. -/
def push (q : CallbackQueueNaive C) (cb : C) : CallbackQueueNaive C :=
  { q with items := q.items ++ [cb] }

/-- The drain loop of `execute` (`CallbackQueueNaive.hpp` lines 81-95): while
the chain is non-empty invoke the front callback; on `true` unlink and delete
the head node and continue, on `false` break with the entry still at the
front.  Returns the remaining chain, `!hasMore`, and the invocation trace. -/
def executeGo (env : C → Bool) : List C → List C × Bool × List C
  | [] => ([], true, [])
  | cb :: rest =>
    if env cb then
      let r := executeGo env rest
      (r.1, r.2.1, cb :: r.2.2)
    else
      (cb :: rest, false, [cb])

/-- `execute` (`CallbackQueueNaive.hpp` lines 79-98): if
`executing.exchange(true)` was already true, return true untouched; otherwise
drain, then `executing.store(false)` and return `!hasMore`. -/
def execute (env : C → Bool) (q : CallbackQueueNaive C) :
    CallbackQueueNaive C × Bool × List C :=
  if q.executing then (q, true, [])
  else
    let r := executeGo env q.items
    ({ items := r.1, executing := false }, r.2.1, r.2.2)

end CallbackQueueNaive

/-- `CallbackQueueLock` (`CallbackQueueLock.hpp`): a null-terminated chain
with a mutex and a plain `executing` re-entrancy flag; popped nodes are
deleted. -/
structure CallbackQueueLock (C : Type) where
  items : List C
  executing : Bool
deriving DecidableEq, Repr

namespace CallbackQueueLock

variable {C : Type}

/-- Constructor: empty chain, `executing = false`. -/
def mkInit : CallbackQueueLock C :=
  { items := [], executing := false }

/-- `push` (`CallbackQueueLock.hpp` lines 58-69): under the mutex, link the
new entry behind the old tail (or make it `head`) — appending. -/
def push (q : CallbackQueueLock C) (cb : C) : CallbackQueueLock C :=
  { q with items := q.items ++ [cb] }

/-- The drain loop of `execute` (`CallbackQueueLock.hpp` lines 89-105): while
the chain is non-empty invoke the front callback; on `true` unlink and delete
the head node and continue, on `false` break with the entry still at the
front. -/
def executeGo (env : C → Bool) : List C → List C × Bool × List C
  | [] => ([], true, [])
  | cb :: rest =>
    if env cb then
      let r := executeGo env rest
      (r.1, r.2.1, cb :: r.2.2)
    else
      (cb :: rest, false, [cb])

/-- `execute` (`CallbackQueueLock.hpp` lines 83-107): if `executing` is
already true, return true untouched; otherwise set `executing = true`, drain
and return `!hasMore`.  `executing` is NEVER reset to false anywhere in the
class, so it remains true after the call returns. -/
def execute (env : C → Bool) (q : CallbackQueueLock C) :
    CallbackQueueLock C × Bool × List C :=
  if q.executing then (q, true, [])
  else
    let r := executeGo env q.items
    ({ items := r.1, executing := true }, r.2.1, r.2.2)

end CallbackQueueLock

/-!
`ReadOrWriteAccess` (`ThreadSynchronization.hpp` lines 145-274) in
single-actor mode (`multithreaded=false`): the Peterson-style alternation
protocol over the volatile flags `read`, `write`, `writersTurn`.  The two
parties are modelled as a transition system in which each C++ statement of
`accessRead`/`accessWrite`/`releaseRead`/`releaseWrite` is one atomic step and
the scheduler may interleave the two parties arbitrarily
(sequential-consistency semantics for the volatile accesses).
`reduceCpuUsage` only inserts a yield inside the spin loops and has no effect
on the transitions.
-/

/-- Program counter of one party cycling through
non-critical → flag published → spinning → critical section. -/
inductive RwPC where
  | idle
  | flagSet
  | waiting
  | critical
deriving DecidableEq, Repr, Fintype

/-- Shared flags of `ReadOrWriteAccess` plus the program points of both parties.
The reader runs `accessRead; <critical section>; releaseRead` in a loop, the
writer `accessWrite; <critical section>; releaseWrite`. -/
structure RwState where
  read : Bool
  write : Bool
  writersTurn : Bool
  rpc : RwPC
  wpc : RwPC
deriving DecidableEq, Repr, Fintype

/-- Initial state: `read = false`, `write = false`, `writersTurn = false`
(member initialisers, lines 151-153), both parties outside. -/
def rwInit : RwState :=
  { read := false, write := false, writersTurn := false
    rpc := RwPC.idle, wpc := RwPC.idle }

/-- One interleaved step.  Reader steps (`accessRead` lines 221-227,
`releaseRead` line 260): `read = true`; `writersTurn = true`; exit the
`while(write && writersTurn)` spin only when its condition is false (a looping
re-check changes no state and is dropped); `read = false`.  Writer steps
(`accessWrite` lines 239-245, `releaseWrite` line 271) are symmetric with
`writersTurn = false` and spin `while(read && !writersTurn)`. -/
def rwStep (s t : RwState) : Prop :=
  (s.rpc = RwPC.idle ∧ t = { s with read := true, rpc := RwPC.flagSet })
  ∨ (s.rpc = RwPC.flagSet ∧ t = { s with writersTurn := true, rpc := RwPC.waiting })
  ∨ (s.rpc = RwPC.waiting ∧ ¬(s.write ∧ s.writersTurn)
      ∧ t = { s with rpc := RwPC.critical })
  ∨ (s.rpc = RwPC.critical ∧ t = { s with read := false, rpc := RwPC.idle })
  ∨ (s.wpc = RwPC.idle ∧ t = { s with write := true, wpc := RwPC.flagSet })
  ∨ (s.wpc = RwPC.flagSet ∧ t = { s with writersTurn := false, wpc := RwPC.waiting })
  ∨ (s.wpc = RwPC.waiting ∧ ¬(s.read ∧ ¬s.writersTurn)
      ∧ t = { s with wpc := RwPC.critical })
  ∨ (s.wpc = RwPC.critical ∧ t = { s with write := false, wpc := RwPC.idle })

instance : DecidableRel rwStep := fun s t => by
  unfold rwStep
  infer_instance

/-- States reachable from `rwInit` by interleaving the two parties. -/
def rwReachable (s : RwState) : Prop :=
  Relation.ReflTransGen rwStep rwInit s

/-- Inductive invariant of the protocol: each interest flag tracks whether its
party is past its first `accessRead`/`accessWrite` statement; the two parties
are never both critical; and a critical party pins `writersTurn` away from a
spinning opponent. -/
def rwInv (s : RwState) : Prop :=
  (s.read ↔ s.rpc ≠ RwPC.idle)
  ∧ (s.write ↔ s.wpc ≠ RwPC.idle)
  ∧ ¬(s.rpc = RwPC.critical ∧ s.wpc = RwPC.critical)
  ∧ (s.rpc = RwPC.critical → s.wpc = RwPC.waiting → s.writersTurn = false)
  ∧ (s.wpc = RwPC.critical → s.rpc = RwPC.waiting → s.writersTurn = true)

instance : DecidablePred rwInv := fun s => by
  unfold rwInv
  infer_instance

/-- Whether an `Except` holds a success value (construction did not throw). -/
def exOk {α : Type} : Except String α → Bool
  | .ok _ => true
  | .error _ => false

/-! Helper lemmas for the queue workload theorems. -/

/-- `QueueLockCustom.push` appends to the data chain in both branches. -/
lemma QueueLockCustom.qlcPush_items {T : Type} (q : QueueLockCustom T) (v : T) :
    (q.push v).items = q.items ++ [v] := by
  simp only [push]
  split
  · simp_all [List.isEmpty_iff]
  · rfl

/-- `QueueTwoPartyNoCritical.push` appends to the data chain. -/
lemma QueueTwoPartyNoCritical.ncPush_items {T : Type}
    (q : QueueTwoPartyNoCritical T) (v : T) :
    (q.push v).items = q.items ++ [v] := rfl

/-- `QueueTwoPartyAtomic.push` appends to the data chain and increments the
biased counter, in both recycle branches. -/
lemma QueueTwoPartyAtomic.push_items_count {T : Type}
    (q : QueueTwoPartyAtomic T) (v : T) :
    (q.push v).items = q.items ++ [v] ∧ (q.push v).count = q.count + 1 := by
  simp only [push]
  split <;> exact ⟨rfl, rfl⟩

/-- Workload correctness for `QueueTwoPartyNoCritical` from any state: the
popped values followed by the remaining chain equal the initial chain followed
by the pushed values. -/
lemma QueueTwoPartyNoCritical.ncRun_spec {T : Type} (ops : List (QOp T)) :
    ∀ q : QueueTwoPartyNoCritical T,
      (run q ops).2 ++ (run q ops).1.items = q.items ++ QOp.pushedOf ops := by
  induction ops with
  | nil => intro q; simp [run, QOp.pushedOf]
  | cons op ops ih =>
    intro q
    cases op with
    | push v =>
      simp only [run, QOp.pushedOf]
      rw [ih]
      simp [ncPush_items]
    | pop =>
      obtain ⟨items, rl⟩ := q
      cases items with
      | nil =>
        simpa [run, pop, QOp.pushedOf] using ih ⟨[], rl⟩
      | cons x rest =>
        have h := ih ⟨rest, rl + 1⟩
        simp only [run, pop, QOp.pushedOf, Option.toList]
        simp_all

/-- Workload correctness for `QueueLockCustom` from any state. -/
lemma QueueLockCustom.qlcRun_spec {T : Type} (ops : List (QOp T)) :
    ∀ q : QueueLockCustom T,
      (run q ops).2 ++ (run q ops).1.items = q.items ++ QOp.pushedOf ops := by
  induction ops with
  | nil => intro q; simp [run, QOp.pushedOf]
  | cons op ops ih =>
    intro q
    cases op with
    | push v =>
      simp only [run, QOp.pushedOf]
      rw [ih]
      simp [qlcPush_items]
    | pop =>
      obtain ⟨items⟩ := q
      cases items with
      | nil =>
        simpa [run, pop, QOp.pushedOf] using ih ⟨[]⟩
      | cons x rest =>
        have h := ih ⟨rest⟩
        simp only [run, pop, QOp.pushedOf, Option.toList]
        simp_all

/-- Workload correctness for `QueueTwoPartyAtomic` from any state satisfying
the biased-counter invariant `count = items.length + 1`. -/
lemma QueueTwoPartyAtomic.atomicRun_spec {T : Type} (ops : List (QOp T)) :
    ∀ q : QueueTwoPartyAtomic T, q.count = q.items.length + 1 →
      (run q ops).2 ++ (run q ops).1.items = q.items ++ QOp.pushedOf ops := by
  induction ops with
  | nil => intro q _; simp [run, QOp.pushedOf]
  | cons op ops ih =>
    intro q hq
    cases op with
    | push v =>
      have hp := push_items_count q v
      have hinv : (q.push v).count = (q.push v).items.length + 1 := by
        rw [hp.1, hp.2, hq]; simp
      simp only [run, QOp.pushedOf]
      rw [ih (q.push v) hinv]
      simp [hp.1]
    | pop =>
      obtain ⟨items, cnt, rc⟩ := q
      cases items with
      | nil =>
        have hc : cnt = 1 := by simpa using hq
        subst hc
        have h := ih ⟨[], 1, rc⟩ (by simp)
        simpa [run, pop, QOp.pushedOf] using h
      | cons x rest =>
        have hc : cnt = rest.length + 2 := by simpa using hq
        subst hc
        have h := ih ⟨rest, rest.length + 1, rc + 1⟩ (by simp)
        simp only [run, pop, QOp.pushedOf, Option.toList]
        simp_all

/-- C3: for every finite sequence of push and pop operations applied
sequentially to a `QueueTwoPartyNoCritical`, a `QueueTwoPartyAtomic` or a
`QueueLockCustom` starting empty, the values returned by the successful pops,
followed by the elements still queued, are exactly the pushed values in push
order — FIFO order with no loss, no duplication and no reordering (in
particular, popped values form a prefix of the pushed values, and equal them
as a multiset once the queue is drained). -/
theorem queue_fifo_run :
    (∀ (T : Type) (ops : List (QOp T)),
      (QueueTwoPartyNoCritical.run QueueTwoPartyNoCritical.mkInit ops).2
        ++ (QueueTwoPartyNoCritical.run QueueTwoPartyNoCritical.mkInit ops).1.items
        = QOp.pushedOf ops)
    ∧ (∀ (T : Type) (ops : List (QOp T)),
      (QueueTwoPartyAtomic.run QueueTwoPartyAtomic.mkInit ops).2
        ++ (QueueTwoPartyAtomic.run QueueTwoPartyAtomic.mkInit ops).1.items
        = QOp.pushedOf ops)
    ∧ (∀ (T : Type) (ops : List (QOp T)),
      (QueueLockCustom.run QueueLockCustom.mkInit ops).2
        ++ (QueueLockCustom.run QueueLockCustom.mkInit ops).1.items
        = QOp.pushedOf ops) := by
  refine ⟨fun T ops => ?_, fun T ops => ?_, fun T ops => ?_⟩
  · simpa [QueueTwoPartyNoCritical.mkInit]
      using QueueTwoPartyNoCritical.ncRun_spec ops QueueTwoPartyNoCritical.mkInit
  · simpa [QueueTwoPartyAtomic.mkInit]
      using QueueTwoPartyAtomic.atomicRun_spec ops QueueTwoPartyAtomic.mkInit (by simp [QueueTwoPartyAtomic.mkInit])
  · simpa [QueueLockCustom.mkInit]
      using QueueLockCustom.qlcRun_spec ops QueueLockCustom.mkInit

/-- Pushing a list into a `QueueRing` with enough free capacity succeeds and
adds its length to the occupancy, preserving capacity and read offset. -/
lemma QueueRing.pushAll_spec {T : Type} (vs : List T) :
    ∀ q : QueueRing T, q.count + vs.length ≤ q.data.length →
      ∃ q2, pushAll q vs = .ok q2 ∧ q2.count = q.count + vs.length
        ∧ q2.data.length = q.data.length := by
  induction vs with
  | nil => intro q _; exact ⟨q, rfl, by simp, rfl⟩
  | cons v vs ih =>
    intro q hq
    have hlen : q.count + (vs.length + 1) ≤ q.data.length := by simpa using hq
    have hne : ¬ q.count = q.data.length := by omega
    have hstep : q.push v = .ok { q with
        count := q.count + 1
        writeOffset := (q.writeOffset + 1) % q.data.length
        data := q.data.set q.writeOffset v } := by
      simp [push, hne]
    obtain ⟨q2, h1, h2, h3⟩ := ih { q with
        count := q.count + 1
        writeOffset := (q.writeOffset + 1) % q.data.length
        data := q.data.set q.writeOffset v }
      (by simpa using by omega)
    refine ⟨q2, ?_, ?_, ?_⟩
    · have hdef : pushAll q (v :: vs) = (q.push v).bind fun q3 => pushAll q3 vs := rfl
      rw [hdef, hstep]
      exact h1
    · simp only at h2
      simp [h2]
      omega
    · simp only at h3
      simpa using h3

/-- Popping `n ≤ count` times removes exactly `n` from the occupancy. -/
lemma QueueRing.popN_count {T : Type} (n : Nat) :
    ∀ q : QueueRing T, n ≤ q.count → (popN q n).count = q.count - n := by
  induction n with
  | zero => intro q _; simp [popN]
  | succ n ih =>
    intro q hn
    have hne : ¬ q.count = 0 := by omega
    have hstep : (q.pop).1 = { q with
        count := q.count - 1
        readOffset := (q.readOffset + 1) % q.data.length } := by
      simp [pop, hne]
    have := ih (q.pop).1 (by rw [hstep]; simp; omega)
    rw [popN, this, hstep]
    simp
    omega

/-- C7: for a `QueueRing` constructed with capacity `C >= 1`, starting empty,
pushing any `C` values succeeds; a further push without an intervening pop
raises the capacity error `"Queue is full"`; and after `C` pops `empty()`
reports true. -/
theorem queueRing_capacity {T : Type} (d : T) (C : Nat) (vs : List T)
    (hC : 1 ≤ C) (hlen : vs.length = C) :
    ∃ q : QueueRing T, QueueRing.pushAll (QueueRing.mkInit C d) vs = .ok q
      ∧ (∀ w : T, q.push w = .error "Queue is full")
      ∧ (QueueRing.popN q C).empty = true := by
  obtain ⟨q, h1, h2, h3⟩ := QueueRing.pushAll_spec vs (QueueRing.mkInit C d)
    (by simp [QueueRing.mkInit, hlen])
  have hcount : q.count = C := by simpa [QueueRing.mkInit, hlen] using h2
  have hcap : q.data.length = C := by simpa [QueueRing.mkInit] using h3
  refine ⟨q, h1, fun w => ?_, ?_⟩
  · simp [QueueRing.push, hcount, hcap]
  · have := QueueRing.popN_count C q (by omega)
    simp [QueueRing.empty, this, hcount]

/-- C7 witness: capacity 3 with pushes `[10, 20, 30]`. -/
theorem queueRing_capacity_witness :
    1 ≤ 3 ∧ ([10, 20, 30] : List Nat).length = 3
    ∧ ∃ q : QueueRing Nat,
        QueueRing.pushAll (QueueRing.mkInit 3 0) [10, 20, 30] = .ok q
        ∧ (∀ w : Nat, q.push w = .error "Queue is full")
        ∧ (QueueRing.popN q 3).empty = true :=
  ⟨by decide, by decide, queueRing_capacity 0 3 [10, 20, 30] (by decide) (by decide)⟩

/-- C8: on every modelled queue variant, `pop` on an empty queue returns false
(`none`) and leaves the state bit-for-bit unchanged, so later operations
behave as if the failed pop had not happened. -/
theorem queue_pop_empty_noop :
    (∀ (T : Type) (q : QueueRing T), q.empty = true → q.pop = (q, none))
    ∧ (∀ (T : Type) (q : QueueTwoPartyAtomic T), q.empty = true → q.pop = (q, none))
    ∧ (∀ (T : Type) (q : QueueTwoPartyNoCritical T), q.empty = true → q.pop = (q, none))
    ∧ (∀ (T : Type) (q : QueueLockCustom T), q.empty = true → q.pop = (q, none)) := by
  refine ⟨fun T q h => ?_, fun T q h => ?_, fun T q h => ?_, fun T q h => ?_⟩
  · have : q.count = 0 := by simpa [QueueRing.empty] using h
    simp [QueueRing.pop, this]
  · obtain ⟨items, cnt, rc⟩ := q
    have : cnt = 1 := by simpa [QueueTwoPartyAtomic.empty] using h
    subst this
    simp [QueueTwoPartyAtomic.pop]
  · obtain ⟨items, rl⟩ := q
    have : items = [] := by simpa [QueueTwoPartyNoCritical.empty, List.isEmpty_iff] using h
    subst this
    rfl
  · obtain ⟨items⟩ := q
    have : items = [] := by simpa [QueueLockCustom.empty, List.isEmpty_iff] using h
    subst this
    rfl

/-- C8 witness: the four freshly constructed queues (over `Nat`, ring capacity
3) are empty and their `pop` returns `none` leaving them unchanged. -/
theorem queue_pop_empty_noop_witness :
    ((QueueRing.mkInit 3 (0 : Nat)).empty = true
      ∧ (QueueRing.mkInit 3 (0 : Nat)).pop = (QueueRing.mkInit 3 0, none))
    ∧ ((QueueTwoPartyAtomic.mkInit : QueueTwoPartyAtomic Nat).empty = true
      ∧ (QueueTwoPartyAtomic.mkInit : QueueTwoPartyAtomic Nat).pop
          = (QueueTwoPartyAtomic.mkInit, none))
    ∧ ((QueueTwoPartyNoCritical.mkInit : QueueTwoPartyNoCritical Nat).empty = true
      ∧ (QueueTwoPartyNoCritical.mkInit : QueueTwoPartyNoCritical Nat).pop
          = (QueueTwoPartyNoCritical.mkInit, none))
    ∧ ((QueueLockCustom.mkInit : QueueLockCustom Nat).empty = true
      ∧ (QueueLockCustom.mkInit : QueueLockCustom Nat).pop
          = (QueueLockCustom.mkInit, none)) :=
  ⟨⟨rfl, queue_pop_empty_noop.1 Nat _ rfl⟩,
   ⟨rfl, queue_pop_empty_noop.2.1 Nat _ rfl⟩,
   ⟨rfl, queue_pop_empty_noop.2.2.1 Nat _ rfl⟩,
   ⟨rfl, queue_pop_empty_noop.2.2.2 Nat _ rfl⟩⟩

/-- C4 counterexample: the claim asserts that every CountingLock
implementation reports a fatal error when constructed with `max < 1`; but
`CountingLockFetch(0, false, false)` constructs successfully — its constructor
body performs no validation. -/
theorem countingLockFetch_accepts_nonpositive_max :
    exOk (CountingLockFetch.mk? 0 false false) = true := rfl

/-- C4 (amended): `CountingLockCompSwap` and `CountingLockSemaphore` report a
fatal configuration error at construction time exactly when `max < 1`;
`CountingLockFetch` performs no such validation and constructs successfully
for every `max`. -/
theorem countingLock_construction_validation (m : Int) (r mt : Bool) :
    (exOk (CountingLockCompSwap.mk? m r mt) = true ↔ 1 ≤ m)
    ∧ (exOk (CountingLockSemaphore.mk? m) = true ↔ 1 ≤ m)
    ∧ exOk (CountingLockFetch.mk? m r mt) = true := by
  refine ⟨?_, ?_, rfl⟩
  · simp only [CountingLockCompSwap.mk?]
    split <;> rename_i h <;> simp [exOk] <;> omega
  · simp only [CountingLockSemaphore.mk?]
    split <;> rename_i h <;> simp [exOk] <;> omega

/-- C5: for `CountingLockCompSwap` and `CountingLockFetch`, calling
`release()` while the counter is 0 reports the over-release error
`"Counter is already at 0."` (never silently absorbed), and afterwards the
counter still equals 0 — the failed release leaves the state unchanged. -/
theorem countingLock_overRelease_reported :
    (∀ lc : CountingLockCompSwap, lc.counter.val = 0 →
      (lc.release).2 = some "Counter is already at 0."
      ∧ (lc.release).1.counter.val = 0 ∧ (lc.release).1 = lc)
    ∧ (∀ lf : CountingLockFetch, lf.counter.val = 0 →
      (lf.release).2 = some "Counter is already at 0."
      ∧ (lf.release).1.counter.val = 0 ∧ (lf.release).1 = lf) := by
  constructor
  · intro lc h0
    obtain ⟨⟨⟨ts⟩, ⟨tp⟩, mt⟩, M⟩ := lc
    cases mt <;>
      simp_all [CountingLockCompSwap.release, Atomic.loadB, Atomic.val,
        AtomicTwoParty.loadB, AtomicThreadSafe.loadB,
        Atomic.compareExchangeWeakB, Atomic.compareExchangeB,
        AtomicTwoParty.compareExchangeB, AtomicThreadSafe.compareExchangeB]
  · intro lf h0
    obtain ⟨⟨⟨ts⟩, ⟨tp⟩, mt⟩, M, cl⟩ := lf
    cases mt <;>
      simp_all [CountingLockFetch.release, Atomic.fetchSubB, Atomic.fetchAddB,
        Atomic.val, AtomicTwoParty.fetchSubB, AtomicTwoParty.fetchAddB,
        AtomicThreadSafe.fetchSubB, AtomicThreadSafe.fetchAddB]

/-- C5 witness: both locks freshly constructed with `max = 2` (counter 0,
spin mode, two-party mode). -/
theorem countingLock_overRelease_reported_witness :
    ({ counter := Atomic.mkInit false false 0, maxCounter := 2 } :
        CountingLockCompSwap).counter.val = 0
    ∧ (({ counter := Atomic.mkInit false false 0, maxCounter := 2 } :
        CountingLockCompSwap).release).2 = some "Counter is already at 0."
    ∧ ({ counter := Atomic.mkInit false false 0, maxCounter := 2,
          closing := false } : CountingLockFetch).counter.val = 0
    ∧ (({ counter := Atomic.mkInit false false 0, maxCounter := 2,
          closing := false } : CountingLockFetch).release).2
        = some "Counter is already at 0." :=
  ⟨rfl,
   (countingLock_overRelease_reported.1
     { counter := Atomic.mkInit false false 0, maxCounter := 2 } rfl).1,
   rfl,
   (countingLock_overRelease_reported.2
     { counter := Atomic.mkInit false false 0, maxCounter := 2,
       closing := false } rfl).1⟩

/-- Characterisation of `CountingLockCompSwap.acquireNB` through the
authoritative counter value: success iff the counter is below the ceiling,
in which case the counter is incremented. -/
lemma CountingLockCompSwap.compSwapAcquireNB_spec (lc : CountingLockCompSwap) :
    (lc.acquireNB).1 = decide (lc.counter.val < lc.maxCounter)
    ∧ (lc.acquireNB).2.counter.val
      = (if lc.counter.val < lc.maxCounter then lc.counter.val + 1
         else lc.counter.val) := by
  obtain ⟨⟨⟨ts⟩, ⟨tp⟩, mt⟩, M⟩ := lc
  cases mt
  · by_cases h : tp < M <;>
      simp [CountingLockCompSwap.acquireNB, Atomic.loadA, AtomicTwoParty.loadA,
        AtomicThreadSafe.loadA, Atomic.compareExchangeWeakA,
        Atomic.compareExchangeA, AtomicTwoParty.compareExchangeA,
        AtomicThreadSafe.compareExchangeA, Atomic.val, h]
  · by_cases h : ts < M <;>
      simp [CountingLockCompSwap.acquireNB, Atomic.loadA, AtomicTwoParty.loadA,
        AtomicThreadSafe.loadA, Atomic.compareExchangeWeakA,
        Atomic.compareExchangeA, AtomicTwoParty.compareExchangeA,
        AtomicThreadSafe.compareExchangeA, Atomic.val, h]

/-- Characterisation of `CountingLockCompSwap.release` through the counter
value: error (and no decrement) iff the counter is not positive. -/
lemma CountingLockCompSwap.compSwapRelease_spec (lc : CountingLockCompSwap) :
    (lc.release).2
      = (if 0 < lc.counter.val then none else some "Counter is already at 0.")
    ∧ (lc.release).1.counter.val
      = (if 0 < lc.counter.val then lc.counter.val - 1 else lc.counter.val) := by
  obtain ⟨⟨⟨ts⟩, ⟨tp⟩, mt⟩, M⟩ := lc
  cases mt
  · by_cases h : 0 < tp <;>
      simp [CountingLockCompSwap.release, Atomic.loadB, AtomicTwoParty.loadB,
        AtomicThreadSafe.loadB, Atomic.compareExchangeWeakB,
        Atomic.compareExchangeB, AtomicTwoParty.compareExchangeB,
        AtomicThreadSafe.compareExchangeB, Atomic.val, h]
  · by_cases h : 0 < ts <;>
      simp [CountingLockCompSwap.release, Atomic.loadB, AtomicTwoParty.loadB,
        AtomicThreadSafe.loadB, Atomic.compareExchangeWeakB,
        Atomic.compareExchangeB, AtomicTwoParty.compareExchangeB,
        AtomicThreadSafe.compareExchangeB, Atomic.val, h]

/-- Characterisation of `CountingLockFetch.acquireNB` (not closing): the
optimistic `fetchAdd` is kept iff the previous value was below the ceiling,
otherwise rolled back by the compensating `fetchSub`. -/
lemma CountingLockFetch.fetchAcquireNB_spec (lf : CountingLockFetch)
    (hcl : lf.closing = false) :
    (lf.acquireNB).1 = decide (lf.counter.val < lf.maxCounter)
    ∧ (lf.acquireNB).2.counter.val
      = (if lf.counter.val < lf.maxCounter then lf.counter.val + 1
         else lf.counter.val) := by
  obtain ⟨⟨⟨ts⟩, ⟨tp⟩, mt⟩, M, cl⟩ := lf
  simp only at hcl
  subst hcl
  cases mt
  · by_cases h : tp < M <;>
      simp [CountingLockFetch.acquireNB, Atomic.fetchAddA, Atomic.fetchSubA,
        AtomicTwoParty.fetchAddA, AtomicTwoParty.fetchSubA,
        AtomicThreadSafe.fetchAddA, AtomicThreadSafe.fetchSubA, Atomic.val, h]
  · by_cases h : ts < M <;>
      simp [CountingLockFetch.acquireNB, Atomic.fetchAddA, Atomic.fetchSubA,
        AtomicTwoParty.fetchAddA, AtomicTwoParty.fetchSubA,
        AtomicThreadSafe.fetchAddA, AtomicThreadSafe.fetchSubA, Atomic.val, h]

/-- Characterisation of `CountingLockFetch.release`: the `fetchSub` is rolled
back (and the over-release error thrown) iff the previous value was `<= 0`. -/
lemma CountingLockFetch.fetchRelease_spec (lf : CountingLockFetch) :
    (lf.release).2
      = (if lf.counter.val ≤ 0 then some "Counter is already at 0." else none)
    ∧ (lf.release).1.counter.val
      = (if lf.counter.val ≤ 0 then lf.counter.val else lf.counter.val - 1) := by
  obtain ⟨⟨⟨ts⟩, ⟨tp⟩, mt⟩, M, cl⟩ := lf
  cases mt
  · by_cases h : tp ≤ 0 <;>
      simp [CountingLockFetch.release, Atomic.fetchSubB, Atomic.fetchAddB,
        AtomicTwoParty.fetchSubB, AtomicTwoParty.fetchAddB,
        AtomicThreadSafe.fetchSubB, AtomicThreadSafe.fetchAddB, Atomic.val, h]
  · by_cases h : ts ≤ 0 <;>
      simp [CountingLockFetch.release, Atomic.fetchSubB, Atomic.fetchAddB,
        AtomicTwoParty.fetchSubB, AtomicTwoParty.fetchAddB,
        AtomicThreadSafe.fetchSubB, AtomicThreadSafe.fetchAddB, Atomic.val, h]

/-- C6: for `CountingLockCompSwap` and `CountingLockFetch` with maximum
`M >= 1` and a counter within `[0, M]`: a non-blocking acquire returns true
and increments the counter by exactly one when the counter is below `M`,
returns false leaving the counter unchanged when it equals `M`; a release from
a positive counter succeeds and decrements by one; and after every such
completed acquire or release the counter stays within `[0, M]`. -/
theorem countingLock_counter_bounds :
    (∀ (lc : CountingLockCompSwap) (c M : Int),
      lc.counter.val = c → lc.maxCounter = M → 1 ≤ M → 0 ≤ c → c ≤ M →
      (0 ≤ (lc.acquireNB).2.counter.val ∧ (lc.acquireNB).2.counter.val ≤ M)
      ∧ (c < M → (lc.acquireNB).1 = true ∧ (lc.acquireNB).2.counter.val = c + 1)
      ∧ (c = M → (lc.acquireNB).1 = false ∧ (lc.acquireNB).2.counter.val = c)
      ∧ (0 < c → (lc.release).2 = none ∧ (lc.release).1.counter.val = c - 1
          ∧ 0 ≤ (lc.release).1.counter.val ∧ (lc.release).1.counter.val ≤ M))
    ∧ (∀ (lf : CountingLockFetch) (c M : Int), lf.closing = false →
      lf.counter.val = c → lf.maxCounter = M → 1 ≤ M → 0 ≤ c → c ≤ M →
      (0 ≤ (lf.acquireNB).2.counter.val ∧ (lf.acquireNB).2.counter.val ≤ M)
      ∧ (c < M → (lf.acquireNB).1 = true ∧ (lf.acquireNB).2.counter.val = c + 1)
      ∧ (c = M → (lf.acquireNB).1 = false ∧ (lf.acquireNB).2.counter.val = c)
      ∧ (0 < c → (lf.release).2 = none ∧ (lf.release).1.counter.val = c - 1
          ∧ 0 ≤ (lf.release).1.counter.val ∧ (lf.release).1.counter.val ≤ M)) := by
  constructor
  · intro lc c M hc hM h1 h0 hcM
    obtain ⟨ha, hb⟩ := lc.compSwapAcquireNB_spec
    obtain ⟨hr1, hr2⟩ := lc.compSwapRelease_spec
    simp only [hc, hM] at ha hb hr1 hr2
    refine ⟨?_, ?_, ?_, ?_⟩
    · rw [hb]; split_ifs <;> omega
    · intro hlt
      rw [ha, hb, if_pos hlt]
      exact ⟨by simpa using hlt, rfl⟩
    · intro heq
      rw [ha, hb, if_neg (by omega)]
      exact ⟨by simp; omega, rfl⟩
    · intro hpos
      rw [hr1, hr2, if_pos hpos, if_pos hpos]
      exact ⟨rfl, rfl, by omega, by omega⟩
  · intro lf c M hcl hc hM h1 h0 hcM
    obtain ⟨ha, hb⟩ := lf.fetchAcquireNB_spec hcl
    obtain ⟨hr1, hr2⟩ := lf.fetchRelease_spec
    simp only [hc, hM] at ha hb hr1 hr2
    refine ⟨?_, ?_, ?_, ?_⟩
    · rw [hb]; split_ifs <;> omega
    · intro hlt
      rw [ha, hb, if_pos hlt]
      exact ⟨by simpa using hlt, rfl⟩
    · intro heq
      rw [ha, hb, if_neg (by omega)]
      exact ⟨by simp; omega, rfl⟩
    · intro hpos
      rw [hr1, hr2, if_neg (by omega), if_neg (by omega)]
      exact ⟨rfl, rfl, by omega, by omega⟩

/-- C6 witness: both locks in the state counter 1, maximum 2 (two-party spin
mode): the non-blocking acquire succeeds raising the counter to 2, and a
release from counter 1 succeeds lowering it to 0. -/
theorem countingLock_counter_bounds_witness :
    (({ counter := Atomic.mkInit false false 1, maxCounter := 2 } :
        CountingLockCompSwap).counter.val = 1
      ∧ (1 : Int) < 2
      ∧ (({ counter := Atomic.mkInit false false 1, maxCounter := 2 } :
          CountingLockCompSwap).acquireNB).1 = true
      ∧ (({ counter := Atomic.mkInit false false 1, maxCounter := 2 } :
          CountingLockCompSwap).acquireNB).2.counter.val = 1 + 1)
    ∧ (({ counter := Atomic.mkInit false false 1, maxCounter := 2,
              closing := false } : CountingLockFetch).counter.val = 1
      ∧ (({ counter := Atomic.mkInit false false 1, maxCounter := 2,
              closing := false } : CountingLockFetch).release).2 = none
      ∧ (({ counter := Atomic.mkInit false false 1, maxCounter := 2,
              closing := false } : CountingLockFetch).release).1.counter.val
          = 1 - 1) :=
  ⟨⟨rfl, by decide,
    ((countingLock_counter_bounds.1
        { counter := Atomic.mkInit false false 1, maxCounter := 2 } 1 2
        rfl rfl (by decide) (by decide) (by decide)).2.1 (by decide)).1,
    ((countingLock_counter_bounds.1
        { counter := Atomic.mkInit false false 1, maxCounter := 2 } 1 2
        rfl rfl (by decide) (by decide) (by decide)).2.1 (by decide)).2⟩,
   ⟨rfl,
    ((countingLock_counter_bounds.2
        { counter := Atomic.mkInit false false 1, maxCounter := 2,
          closing := false } 1 2 rfl rfl rfl (by decide) (by decide)
        (by decide)).2.2.2 (by decide)).1,
    ((countingLock_counter_bounds.2
        { counter := Atomic.mkInit false false 1, maxCounter := 2,
          closing := false } 1 2 rfl rfl rfl (by decide) (by decide)
        (by decide)).2.2.2 (by decide)).2.1⟩⟩

set_option maxRecDepth 100000 in
/-- The protocol invariant holds in the initial state. -/
lemma rwInv_init : rwInv rwInit := by decide

set_option maxRecDepth 1000000 in
/-- The protocol invariant is preserved by every interleaved step. -/
lemma rwInv_preserved : ∀ s t : RwState, rwInv s → rwStep s t → rwInv t := by
  decide

set_option maxRecDepth 100000 in
/-- The protocol invariant forbids simultaneous critical sections. -/
lemma rwInv_mutex :
    ∀ s : RwState, rwInv s →
      ¬(s.rpc = RwPC.critical ∧ s.wpc = RwPC.critical) := by
  decide

/-- C9: in single-actor mode (`multithreaded=false`) with one reader and one
writer, over every interleaving of the atomic statements of the two sides in
`accessRead`/`releaseRead`/`accessWrite`/`releaseWrite`, no reachable state of
the `ReadOrWriteAccess` alternation protocol has both the reader and the
writer inside their critical sections. -/
theorem readOrWriteAccess_mutual_exclusion (s : RwState) (h : rwReachable s) :
    ¬(s.rpc = RwPC.critical ∧ s.wpc = RwPC.critical) := by
  have hinv : rwInv s := by
    induction h with
    | refl => exact rwInv_init
    | tail hsteps hstep ih => exact rwInv_preserved _ _ ih hstep
  exact rwInv_mutex s hinv

/-- C9 witness: the state with the reader inside its critical section,
reached by `read = true; writersTurn = true; exit the spin`, is reachable and
satisfies mutual exclusion. -/
theorem readOrWriteAccess_mutual_exclusion_witness :
    rwReachable { read := true, write := false, writersTurn := true, rpc := RwPC.critical, wpc := RwPC.idle }
    ∧ ¬(({ read := true, write := false, writersTurn := true, rpc := RwPC.critical, wpc := RwPC.idle } : RwState).rpc = RwPC.critical
        ∧ ({ read := true, write := false, writersTurn := true, rpc := RwPC.critical, wpc := RwPC.idle } : RwState).wpc = RwPC.critical) :=
  have h1 : rwStep rwInit { read := true, write := false, writersTurn := false, rpc := RwPC.flagSet, wpc := RwPC.idle } := by decide
  have h2 : rwStep { read := true, write := false, writersTurn := false, rpc := RwPC.flagSet, wpc := RwPC.idle } { read := true, write := false, writersTurn := true, rpc := RwPC.waiting, wpc := RwPC.idle } := by decide
  have h3 : rwStep { read := true, write := false, writersTurn := true, rpc := RwPC.waiting, wpc := RwPC.idle } { read := true, write := false, writersTurn := true, rpc := RwPC.critical, wpc := RwPC.idle } := by decide
  have hreach : rwReachable { read := true, write := false, writersTurn := true, rpc := RwPC.critical, wpc := RwPC.idle } :=
    Relation.ReflTransGen.tail
      (Relation.ReflTransGen.tail
        (Relation.ReflTransGen.tail Relation.ReflTransGen.refl h1) h2) h3
  ⟨hreach, readOrWriteAccess_mutual_exclusion _ hreach⟩

/-- C10: for every operation of `AtomicThreadSafe` and `AtomicTwoParty` (and
hence of the dispatching `Atomic` in both modes) — store, load, fetchAdd,
fetchSub, exchange and compareExchange on either side — the
`std::memory_order` argument has no effect on behaviour: two calls differing
only in the order argument return the same result and leave the same state.
In `AtomicThreadSafe` each body overwrites the argument via
`order = std::memory_order_seq_cst` before forwarding it, so even the order
reaching the underlying `std::atomic` is always `seq_cst`; `AtomicTwoParty`
discards it via `(void)order;`. -/
theorem atomic_memoryOrder_no_effect {T : Type} [DecidableEq T] [Add T]
    [Sub T] (o₁ o₂ : MemoryOrder) :
    (∀ (a : AtomicThreadSafe T) (v : T), a.storeA v o₁ = a.storeA v o₂)
    ∧ (∀ (a : AtomicThreadSafe T) (v : T), a.storeB v o₁ = a.storeB v o₂)
    ∧ (∀ a : AtomicThreadSafe T, a.loadA o₁ = a.loadA o₂)
    ∧ (∀ a : AtomicThreadSafe T, a.loadB o₁ = a.loadB o₂)
    ∧ (∀ (a : AtomicThreadSafe T) (v : T), a.fetchAddA v o₁ = a.fetchAddA v o₂)
    ∧ (∀ (a : AtomicThreadSafe T) (v : T), a.fetchAddB v o₁ = a.fetchAddB v o₂)
    ∧ (∀ (a : AtomicThreadSafe T) (v : T), a.fetchSubA v o₁ = a.fetchSubA v o₂)
    ∧ (∀ (a : AtomicThreadSafe T) (v : T), a.fetchSubB v o₁ = a.fetchSubB v o₂)
    ∧ (∀ (a : AtomicThreadSafe T) (v : T), a.exchangeA v o₁ = a.exchangeA v o₂)
    ∧ (∀ (a : AtomicThreadSafe T) (v : T), a.exchangeB v o₁ = a.exchangeB v o₂)
    ∧ (∀ (a : AtomicThreadSafe T) (e d : T),
        a.compareExchangeA e d o₁ = a.compareExchangeA e d o₂)
    ∧ (∀ (a : AtomicThreadSafe T) (e d : T),
        a.compareExchangeB e d o₁ = a.compareExchangeB e d o₂)
    ∧ (∀ (a : AtomicTwoParty T) (v : T), a.storeA v o₁ = a.storeA v o₂)
    ∧ (∀ (a : AtomicTwoParty T) (v : T), a.storeB v o₁ = a.storeB v o₂)
    ∧ (∀ a : AtomicTwoParty T, a.loadA o₁ = a.loadA o₂)
    ∧ (∀ a : AtomicTwoParty T, a.loadB o₁ = a.loadB o₂)
    ∧ (∀ (a : AtomicTwoParty T) (v : T), a.fetchAddA v o₁ = a.fetchAddA v o₂)
    ∧ (∀ (a : AtomicTwoParty T) (v : T), a.fetchAddB v o₁ = a.fetchAddB v o₂)
    ∧ (∀ (a : AtomicTwoParty T) (v : T), a.fetchSubA v o₁ = a.fetchSubA v o₂)
    ∧ (∀ (a : AtomicTwoParty T) (v : T), a.fetchSubB v o₁ = a.fetchSubB v o₂)
    ∧ (∀ (a : AtomicTwoParty T) (v : T), a.exchangeA v o₁ = a.exchangeA v o₂)
    ∧ (∀ (a : AtomicTwoParty T) (v : T), a.exchangeB v o₁ = a.exchangeB v o₂)
    ∧ (∀ (a : AtomicTwoParty T) (e d : T),
        a.compareExchangeA e d o₁ = a.compareExchangeA e d o₂)
    ∧ (∀ (a : AtomicTwoParty T) (e d : T),
        a.compareExchangeB e d o₁ = a.compareExchangeB e d o₂)
    ∧ (∀ (a : Atomic T) (v : T), a.storeA v o₁ = a.storeA v o₂)
    ∧ (∀ (a : Atomic T) (v : T), a.storeB v o₁ = a.storeB v o₂)
    ∧ (∀ a : Atomic T, a.loadA o₁ = a.loadA o₂)
    ∧ (∀ a : Atomic T, a.loadB o₁ = a.loadB o₂)
    ∧ (∀ (a : Atomic T) (v : T), a.fetchAddA v o₁ = a.fetchAddA v o₂)
    ∧ (∀ (a : Atomic T) (v : T), a.fetchAddB v o₁ = a.fetchAddB v o₂)
    ∧ (∀ (a : Atomic T) (v : T), a.fetchSubA v o₁ = a.fetchSubA v o₂)
    ∧ (∀ (a : Atomic T) (v : T), a.fetchSubB v o₁ = a.fetchSubB v o₂)
    ∧ (∀ (a : Atomic T) (v : T), a.exchangeA v o₁ = a.exchangeA v o₂)
    ∧ (∀ (a : Atomic T) (v : T), a.exchangeB v o₁ = a.exchangeB v o₂)
    ∧ (∀ (a : Atomic T) (e d : T),
        a.compareExchangeA e d o₁ = a.compareExchangeA e d o₂)
    ∧ (∀ (a : Atomic T) (e d : T),
        a.compareExchangeB e d o₁ = a.compareExchangeB e d o₂) := by
  repeat' apply And.intro
  all_goals intros; rfl

/-- C1: the claim says that in every CallbackQueue variant a callback that
returns false stays at the front of the queue for the next drain.
`CallbackQueueThreadSafe` and `CallbackQueueNaive` do behave that way, but
`CallbackQueueTwoParty.execute` unlinks and recycles the front node BEFORE
invoking its callback: after a single queued callback returns false, the
queue is left empty (the callback is gone), contradicting the claim and the
own documentation of the method. -/
theorem callbackQueueTwoParty_drops_false_callback :
    (CallbackQueueTwoParty.execute (fun b : Bool => b)
        { items := [false], recycleLen := 1 }
      = ({ items := [], recycleLen := 2 }, false, [false]))
    ∧ (CallbackQueueThreadSafe.execute (fun b : Bool => b)
        { items := [false], recycleLen := 0 }
      = ({ items := [false], recycleLen := 0 }, false, [false]))
    ∧ (CallbackQueueNaive.execute (fun b : Bool => b)
        { items := [false], executing := false }
      = ({ items := [false], executing := false }, false, [false])) :=
  ⟨rfl, rfl, rfl⟩

/-- C2: the claim says that once `execute()` has returned, a later
`execute()` performs a fresh drain.  `CallbackQueueNaive` does (its flag is
stored back to false), but `CallbackQueueLock.execute` never resets its
`executing` flag: after pushing callbacks 1 (returns true), 2 (returns
false), 3 (returns true), the first `execute()` invokes 1 and 2 and returns
false with 2, 3 still queued — and the second `execute()`, even with callback
2 now returning true, returns true immediately, invoking nothing and leaving
2, 3 queued forever. -/
theorem callbackQueueLock_executing_flag_never_cleared :
    (CallbackQueueLock.execute (fun n => n != 2)
        (((CallbackQueueLock.mkInit.push 1).push 2).push 3)
      = ({ items := [2, 3], executing := true }, false, [1, 2]))
    ∧ (CallbackQueueLock.execute (fun _ => true)
        { items := [2, 3], executing := true }
      = ({ items := [2, 3], executing := true }, true, []))
    ∧ (CallbackQueueNaive.execute (fun n => n != 2)
        (((CallbackQueueNaive.mkInit.push 1).push 2).push 3)
      = ({ items := [2, 3], executing := false }, false, [1, 2]))
    ∧ (CallbackQueueNaive.execute (fun _ => true)
        { items := [2, 3], executing := false }
      = ({ items := [], executing := false }, true, [2, 3])) :=
  ⟨rfl, rfl, rfl, rfl⟩

end Spi
